import Mathlib

/-!
# Verification of the nanotime time/calendar engine

Shallow embedding of `src/src/time.c` (a C port of Go's `time` package) and
proofs/refutations of the frozen claims about it.

Conventions used throughout the embedding:
* C `int64_t` values are embedded as `ℤ`; an arithmetic step whose result can
  leave `[-2^63, 2^63)` is wrapped explicitly with `wrap64` (two's-complement
  wraparound, the behaviour the port inherits from the Go original).
* C `uint64_t` values are embedded as `ℤ` kept in `[0, 2^64)`; a conversion
  from a signed value is `toU64` (reduction mod `2^64`).  On such non-negative
  values C's unsigned `/`, `%`, `>>` coincide with `ℤ`'s floor `/`, `%` and
  division by a power of two, which is what the embedding uses.
* C `int` (32-bit) values are embedded as `ℤ`; a narrowing store into an `int`
  field or variable that can overflow is wrapped with `wrap32`.
* C `/` and `%` on possibly-negative signed operands truncate toward zero:
  they are embedded as `Int.tdiv` / `Int.tmod`.
* Fallible code (a `NULL`-pointer dereference the C source can reach, or an
  explicit `nt_panic`) is embedded with `Option`/`Except`.
-/

namespace Nanotime

/-- Two's-complement wraparound of an integer into the signed 64-bit range
`[-2^63, 2^63)`, the effect of C/Go `int64` arithmetic overflowing. -/
def wrap64 (x : ℤ) : ℤ := (x + 2 ^ 63) % 2 ^ 64 - 2 ^ 63

/-- Two's-complement wraparound into the signed 32-bit range `[-2^31, 2^31)`,
the effect of storing a wider value into a C `int`. -/
def wrap32 (x : ℤ) : ℤ := (x + 2 ^ 31) % 2 ^ 32 - 2 ^ 31

/-- C conversion of an integer to `uint64_t`: reduction modulo `2^64` into
`[0, 2^64)`. -/
def toU64 (x : ℤ) : ℤ := x % 2 ^ 64

/-! ## IEEE-754 binary64 simulation for the epoch constant

`time.c` line 128 computes

  `nt_absoluteToInternal = (nt_absoluteZeroYear - nt_internalYear) * 365.2425 * nt_secondsPerDay`

in C `double` arithmetic: the `int64_t` difference is promoted to `double`,
multiplied by the `double` literal `365.2425`, the product is rounded to
binary64, multiplied by `86400`, rounded to binary64 again, and finally
truncated toward zero when stored into the `int64_t` constant.  (The Go
original evaluates the same expression in exact untyped-constant arithmetic;
the double rounding is what the C source actually does, and it changes the
value.)  The functions below implement binary64 round-to-nearest, ties to
even, on exact fractions of naturals; all inputs involved are well inside the
normal range of binary64, so neither overflow nor subnormals can occur. -/

/-- Fuel-bounded bit length: `bitLenAux f n` is `⌊log₂ n⌋ + 1` for `0 < n < 2^f`
(and `0` for `n = 0`).  Fuel keeps the recursion structural so the kernel can
evaluate it. -/
def bitLenAux : ℕ → ℕ → ℕ
  | 0, _ => 0
  | f + 1, n => if n = 0 then 0 else bitLenAux f (n / 2) + 1

/-- Bit length of a natural number below `2^128`. -/
def bitLen (n : ℕ) : ℕ := bitLenAux 128 n

/-- Computes `⌊log₂ (a/b)⌋` for positive naturals `a`, `b`: the bit-length difference is
either the answer or one too large, and a single comparison decides which. -/
def floorLog2 (a b : ℕ) : ℤ :=
  let l : ℤ := (bitLen a : ℤ) - (bitLen b : ℤ)
  if 0 ≤ l then (if b * 2 ^ l.toNat ≤ a then l else l - 1)
  else (if b ≤ a * 2 ^ (-l).toNat then l else l - 1)

/-- Round the fraction `a/b` (`b > 0`) to the nearest natural, ties to even. -/
def rndNearestEven (a b : ℕ) : ℕ :=
  let q := a / b
  let r := a % b
  if 2 * r < b then q
  else if b < 2 * r then q + 1
  else if q % 2 = 0 then q else q + 1

/-- Binary64 rounding of the positive fraction `a/b`: the result is the pair
`(m, e)` with the rounded value equal to `m · 2^e` and `m` the 53-bit
significand (to nearest, ties to even). -/
def flPos (a b : ℕ) : ℕ × ℤ :=
  let e := floorLog2 a b - 52
  if 0 ≤ e then (rndNearestEven a (b * 2 ^ e.toNat), e)
  else (rndNearestEven (a * 2 ^ (-e).toNat) b, e)

/-- Re-express a binary64 value `m · 2^e` as an exact fraction
(numerator, positive denominator). -/
def fracOfFl : ℕ × ℤ → ℕ × ℕ :=
  fun p => if 0 ≤ p.2 then (p.1 * 2 ^ p.2.toNat, 1) else (p.1, 2 ^ (-p.2).toNat)

/-! ## Constants (`time.c` lines 30-36, 118-140, 192-193, 1174-1175) -/

def nt_secondsPerMinute : ℤ := 60
def nt_secondsPerHour : ℤ := 60 * nt_secondsPerMinute
def nt_secondsPerDay : ℤ := 24 * nt_secondsPerHour
def nt_secondsPerWeek : ℤ := 7 * nt_secondsPerDay
def nt_daysPer400Years : ℤ := 365 * 400 + 97
def nt_daysPer100Years : ℤ := 365 * 100 + 24
def nt_daysPer4Years : ℤ := 365 * 4 + 1

def nt_absoluteZeroYear : ℤ := -292277022399
def nt_internalYear : ℤ := 1

/-- Embeds `time.c` line 128.  The whole chain is negative, and binary64 rounding is
sign-symmetric, so the embedding rounds the magnitude and negates: steps are
fl(365.2425), fl(292277022400 · fl(365.2425)), fl(that · 86400), truncation
toward zero (which on the final value, an exact integer, is exact). -/
def nt_absoluteToInternal : ℤ :=
  let f365 := fracOfFl (flPos 3652425 10000)
  let y := fracOfFl (flPos ((nt_internalYear - nt_absoluteZeroYear).toNat * f365.1) f365.2)
  let z := fracOfFl (flPos (y.1 * 86400) y.2); -((z.1 / z.2 : ℕ) : ℤ)

def nt_internalToAbsolute : ℤ := -nt_absoluteToInternal

def nt_unixToInternal : ℤ := (1969 * 365 + 1969 / 4 - 1969 / 100 + 1969 / 400) * nt_secondsPerDay
def nt_internalToUnix : ℤ := -nt_unixToInternal

def nt_wallToInternal : ℤ := (1884 * 365 + 1884 / 4 - 1884 / 100 + 1884 / 400) * nt_secondsPerDay

def nt_maxWall : ℤ := nt_wallToInternal + (2 ^ 33 - 1)
def nt_minWall : ℤ := nt_wallToInternal
def nt_nsecShift : ℕ := 30

def minDuration : ℤ := -(2 ^ 63)
def maxDuration : ℤ := 2 ^ 63 - 1

/-- Beginning of time for zone transitions (`math.MinInt64`). -/
def nt_alpha : ℤ := -(2 ^ 63)
/-- End of time for zone transitions (`math.MaxInt64`). -/
def nt_omega : ℤ := 2 ^ 63 - 1

/-! ## Data model

Modelled from the spec: the repository's header `time.h` (the declarations of
`nt_Time`, `nt_Location`, `nt_zone`, `nt_zoneTrans`, `nt_Duration` and the
month/weekday/duration-unit constants) is not under `src/`; the field layout
below follows spec §3 together with the way every field is used in
`src/src/time.c` (and the Go `time` package the file ports): `wall` is an
unsigned 64-bit word (bit 63 monotonic flag, bits 62..30 packed seconds,
bits 29..0 nanoseconds), `ext` a signed 64-bit count, `loc` a nullable
location pointer.  A `Location` holds a zone table, a transition table, the
single-slot cache and the extension string (spec §3 "Location").

Pointer structure: the C code compares `loc` against `NULL`, against the
process-wide singletons `&nt_utcLoc` / `&nt_localLoc`, and dereferences it.
`Loc` models a non-NULL location pointer (the two singletons are
constructors, any other location carries its `LocationData`), and a nullable
pointer is `Option Loc`.  `nt_localLoc` is a zero-initialised static whose
loader (`initLocal`) is an external collaborator (spec §2): its data is the
all-empty record. -/

/-- A zone record: name, offset in seconds east of UTC, DST flag. -/
structure nt_zone where
  name : String
  offset : ℤ
  isDST : Bool
deriving DecidableEq

/-- A zone transition: instant (Unix seconds) at which the zone at `index`
takes effect. -/
structure nt_zoneTrans where
  whenSec : ℤ
  index : ℕ
deriving DecidableEq

instance : Inhabited nt_zone := ⟨⟨"", 0, false⟩⟩
instance : Inhabited nt_zoneTrans := ⟨⟨0, 0⟩⟩

/-- The contents of an `nt_Location`: zone table, transition table,
single-slot cache (`cacheZone` is a nullable pointer to a zone record) and
extension string. -/
structure LocationData where
  name : String
  zone : List nt_zone
  tx : List nt_zoneTrans
  cacheStart : ℤ
  cacheEnd : ℤ
  cacheZone : Option nt_zone
  extend : String
deriving DecidableEq

/-- A non-NULL `nt_Location *`: the UTC singleton `&nt_utcLoc`, the Local
singleton `&nt_localLoc`, or any other location. -/
inductive Loc where
  | utc
  | localLoc
  | custom (l : LocationData)
deriving DecidableEq

/-- The record a `Loc` pointer points at.  `nt_utcLoc` is
`(nt_Location){.name = "UTC"}` (all other fields zero); `nt_localLoc` is
all-zero (never initialised in the source). -/
def Loc.data : Loc → LocationData
  | .utc => ⟨"UTC", [], [], 0, 0, none, ""⟩
  | .localLoc => ⟨"", [], [], 0, 0, none, ""⟩
  | .custom l => l

/-- The instant type (`nt_Time`): `wall` is kept in `[0, 2^64)`. -/
structure nt_Time where
  wall : ℤ
  ext : ℤ
  loc : Option Loc
deriving DecidableEq

/-! ## Instant representation (`time.c` lines 280-430) -/

/-- Embeds `t->wall & nt_hasMonotonic != 0`: bit 63 of the unsigned `wall` word. -/
def nt_Time_hasMono (t : nt_Time) : Bool := 2 ^ 63 ≤ t.wall

/-- The source's `nsec` returns the time's nanoseconds: `wall & nt_nsecMask`
(the low 30 bits). -/
def nt_Time_nsec (t : nt_Time) : ℤ := t.wall % 2 ^ 30

/-- The source's `sec` returns the time's seconds since Jan 1 year 1.  The packed seconds
are `wall << 1 >> (nsecShift+1)` on the unsigned word, i.e.
`(wall·2 mod 2^64) / 2^31`; the `int64` sum with `nt_wallToInternal` is
wrapped. -/
def nt_Time_sec (t : nt_Time) : ℤ :=
  if nt_Time_hasMono t then
    wrap64 (nt_wallToInternal + t.wall * 2 % 2 ^ 64 / 2 ^ (nt_nsecShift + 1))
  else t.ext

/-- The source's `unixSec` returns the time's seconds since Jan 1 1970. -/
def nt_Time_unixSec (t : nt_Time) : ℤ := wrap64 (nt_Time_sec t + nt_internalToUnix)

/-- The source's `stripMono` strips the monotonic clock reading:
`ext = sec(t); wall &= nsecMask`. -/
def nt_Time_stripMono (t : nt_Time) : nt_Time :=
  if nt_Time_hasMono t then
    { t with ext := nt_Time_sec t, wall := t.wall % 2 ^ 30 }
  else t

/-- Embeds `setLoc` (called with a non-NULL location in every embedded call site):
a location whose name compares equal to `"UTC"` collapses to the NULL
pointer, and the monotonic reading is stripped. -/
def nt_Time_setLoc (t : nt_Time) (loc : Loc) : nt_Time :=
  let locP : Option Loc := if (Loc.data loc).name = "UTC" then none else some loc
  let t := nt_Time_stripMono t
  { t with loc := locP }

/-- Embeds `After` as the C source computes it: note that the source parenthesises
`(ts == us && nt_Time_nsec(&t)) > nt_Time_nsec(&u)`, so the `&&` produces an
`int` `0`/`1` which is then compared against `u`'s nanoseconds. -/
def nt_TimeAfter (t u : nt_Time) : Bool :=
  if nt_Time_hasMono t ∧ nt_Time_hasMono u then u.ext < t.ext
  else
    let ts := nt_Time_sec t
    let us := nt_Time_sec u
    us < ts ∨ nt_Time_nsec u < (if ts = us ∧ nt_Time_nsec t ≠ 0 then 1 else 0)

/-- Embeds `Before` as the C source computes it: the same misplaced parenthesis,
`(ts == us && nt_Time_nsec(&t)) < nt_Time_nsec(&u)`. -/
def nt_TimeBefore (t u : nt_Time) : Bool :=
  if nt_Time_hasMono t ∧ nt_Time_hasMono u then t.ext < u.ext
  else
    let ts := nt_Time_sec t
    let us := nt_Time_sec u
    ts < us ∨ (if ts = us ∧ nt_Time_nsec t ≠ 0 then (1 : ℤ) else 0) < nt_Time_nsec u

/-- Embeds `Compare`: -1 if t sorts before u, +1 if after, 0 if equal. -/
def nt_TimeCompare (t u : nt_Time) : ℤ :=
  let p : ℤ × ℤ :=
    if nt_Time_hasMono t ∧ nt_Time_hasMono u then (t.ext, u.ext)
    else
      let tc := nt_Time_sec t
      let uc := nt_Time_sec u
      if tc = uc then (nt_Time_nsec t, nt_Time_nsec u) else (tc, uc)
  if p.1 < p.2 then -1 else if p.2 < p.1 then 1 else 0

/-- The source's `Equal` reports whether t and u represent the same time instant. -/
def nt_TimeEqual (t u : nt_Time) : Bool :=
  if nt_Time_hasMono t ∧ nt_Time_hasMono u then t.ext = u.ext
  else nt_Time_sec t = nt_Time_sec u ∧ nt_Time_nsec t = nt_Time_nsec u

/-! ## Location/zone resolver (`time.c` lines 1180-1338) -/

/-- Embeds `nt_Location_get`: a NULL pointer resolves to the UTC singleton; the
`localOnce.Do(initLocal)` of the Go original is commented out in the source,
so every non-NULL pointer (the Local singleton included) is returned as is. -/
def nt_Location_get (l : Option Loc) : Loc :=
  match l with
  | none => .utc
  | some x => x

/-- The result record `struct nt_Location_lookup`: note that the source
declares `start` as a C `int` (32-bit) while `end` is `int64_t`, so every
store into `start` narrows through `wrap32`. -/
structure LookupRes where
  name : String
  offset : ℤ
  start : ℤ
  stop : ℤ
  isDST : Bool
deriving DecidableEq

/-- The binary-search loop of `nt_Location_lookup` (`time.c` lines 1254-1265):
`while (hi-lo > 1) { m = (lo+hi)>>1; if (sec < tx[m].when) { end = tx[m].when;
hi = m; } else lo = m; }`.  The interval `hi - lo` shrinks strictly on every
iteration, so any fuel ≥ the initial interval makes the `0` case unreachable;
the caller passes `tx.length`. -/
def bsearchLoop (tx : List nt_zoneTrans) (sec : ℤ) :
    ℕ → ℕ → ℕ → ℤ → ℕ × ℤ
  | 0, lo, _, stop => (lo, stop)
  | fuel + 1, lo, hi, stop =>
    if 1 < hi - lo then
      let m := (lo + hi) / 2
      if sec < (tx.getD m default).whenSec then
        bsearchLoop tx sec fuel lo m (tx.getD m default).whenSec
      else
        bsearchLoop tx sec fuel m hi stop
    else (lo, stop)

/-- The tail of `nt_Location_lookup` after the zone-table and cache checks.
`zone` is the local variable of the C function, still holding the cache
pointer `l->cacheZone`.  In the branch for times before the first transition
the call `zone = &l.zone[l.lookupFirstZone()]` is commented out in the
source, so the C code reads through the (possibly NULL) cache pointer:
`none` models the NULL dereference.  The final `extend`-string branch's body
is also commented out in the source, so it has no effect and is omitted. -/
def nt_Location_lookupSlow (ld : LocationData) (sec : ℤ) (zone : Option nt_zone) :
    Option LookupRes :=
  if ld.tx.length = 0 ∨ sec < (ld.tx.headD default).whenSec then
    match zone with
    | none => none
    | some z =>
      some ⟨z.name, z.offset, wrap32 nt_alpha,
            if 0 < ld.tx.length then (ld.tx.headD default).whenSec else nt_omega,
            z.isDST⟩
  else
    let r := bsearchLoop ld.tx sec ld.tx.length 0 ld.tx.length nt_omega
    let z := ld.zone.getD (ld.tx.getD r.1 default).index default
    some ⟨z.name, z.offset, wrap32 (ld.tx.getD r.1 default).whenSec, r.2, z.isDST⟩

/-- The source's `lookup` returns information about the time zone in use at `sec`
(Unix seconds): zone-less locations are UTC, then the single-slot cache,
then the pre-first-transition branch, then binary search. -/
def nt_Location_lookup (lo : Option Loc) (sec : ℤ) : Option LookupRes :=
  let l := nt_Location_get lo
  let ld := l.data
  if ld.zone.length = 0 then
    some ⟨"UTC", 0, wrap32 nt_alpha, nt_omega, false⟩
  else
    match ld.cacheZone with
    | some z =>
      if ld.cacheStart ≤ sec ∧ sec < ld.cacheEnd then
        some ⟨z.name, z.offset, wrap32 ld.cacheStart, ld.cacheEnd, z.isDST⟩
      else nt_Location_lookupSlow ld sec (some z)
    | none => nt_Location_lookupSlow ld sec none

/-- The source's `firstZoneUsed` reports whether some transition references zone 0. -/
def nt_Location_firstZoneUsed (l : LocationData) : Bool :=
  l.tx.any (fun tx => tx.index = 0)

/-- The backward scan of `lookupFirstZone` case 2: from index `zi` downward,
the first zone that is not DST (`for (zi = tx[0].index - 1; zi >= 0; zi--)`). -/
def scanNonDST (zs : List nt_zone) : ℕ → Option ℕ
  | 0 => if (zs.getD 0 default).isDST = false then some 0 else none
  | zi + 1 =>
    if (zs.getD (zi + 1) default).isDST = false then some (zi + 1)
    else scanNonDST zs zi

/-- The source's `lookupFirstZone` returns the index of the zone to use for times before
the first transition: (1) the first zone if unused by transitions, (2) else,
if the first transition is to a DST zone, the nearest earlier non-DST zone,
(3) else the first non-DST zone, (4) else zone 0. -/
def nt_Location_lookupFirstZone (l : LocationData) : ℕ :=
  if ¬ nt_Location_firstZoneUsed l then 0
  else
    let fzi := (l.tx.headD default).index
    let case2 : Option ℕ :=
      if 0 < l.tx.length ∧ (l.zone.getD fzi default).isDST then
        if fzi = 0 then none else scanNonDST l.zone (fzi - 1)
      else none
    match case2 with
    | some zi => zi
    | none =>
      match l.zone.findIdx? (fun z => z.isDST = false) with
      | some zi => zi
      | none => 0

/-! ## Presentation: absolute time and the calendar engine
(`time.c` lines 486-676, 1036-1108) -/

/-- The source's `abs` returns `t` as an absolute time (`uint64_t`), adjusted by the zone
offset.  The source's zone handling is unfinished (its `TODO` comment):
for a non-UTC location the offset is added only when the cache slot covers
`sec`; the commented-out `l.lookup(sec)` call is never made.  The trailing
conversion chain (signed additions, return through `uint64_t`) composes to
one reduction mod `2^64`. -/
def nt_Time_abs (t : nt_Time) : ℤ :=
  let l := nt_Location_get t.loc
  let sec := nt_Time_unixSec t
  let sec :=
    if l = Loc.utc then sec
    else
      match (Loc.data l).cacheZone with
      | some z =>
        if (Loc.data l).cacheStart ≤ sec ∧ sec < (Loc.data l).cacheEnd then
          wrap64 (sec + z.offset)
        else sec
      | none => sec
  toU64 (sec + (nt_unixToInternal + nt_internalToAbsolute))

/-- Cumulative days before each month (`nt_daysBefore`). -/
def nt_daysBefore : List ℤ :=
  [0, 31, 31 + 28, 31 + 28 + 31, 31 + 28 + 31 + 30, 31 + 28 + 31 + 30 + 31,
   31 + 28 + 31 + 30 + 31 + 30, 31 + 28 + 31 + 30 + 31 + 30 + 31,
   31 + 28 + 31 + 30 + 31 + 30 + 31 + 31, 31 + 28 + 31 + 30 + 31 + 30 + 31 + 31 + 30,
   31 + 28 + 31 + 30 + 31 + 30 + 31 + 31 + 30 + 31,
   31 + 28 + 31 + 30 + 31 + 30 + 31 + 31 + 30 + 31 + 30,
   31 + 28 + 31 + 30 + 31 + 30 + 31 + 31 + 30 + 31 + 30 + 31]

/-- Embeds `isLeap`: divisible by 4 and (not by 100 or by 400); C `%` on `int` is
truncated remainder. -/
def nt_isLeap (year : ℤ) : Bool :=
  Int.tmod year 4 = 0 ∧ (Int.tmod year 100 ≠ 0 ∨ Int.tmod year 400 = 0)

/-- The result quadruple of `absDate` (`struct nt_date`, all C `int`s). -/
structure nt_date where
  year : ℤ
  month : ℤ
  day : ℤ
  yday : ℤ
deriving DecidableEq

/-- The month/day estimation tail of `absDate` (lines 1093-1107): estimate
assuming 31-day months, then correct by at most one month against the
cumulative table. -/
def nt_absDateFull (year yday day : ℤ) : nt_date :=
  let month := Int.tdiv day 31
  let stop := nt_daysBefore.getD (month + 1).toNat 0
  let p := if stop ≤ day then (month + 1, stop) else (month, nt_daysBefore.getD month.toNat 0)
  ⟨year, p.1 + 1, day - p.2 + 1, yday⟩

/-- The source's `absDate` operates on an absolute time (`uint64_t`, non-negative, so C's
unsigned `/`, `%`, `>>2` agree with `ℤ`'s floor operations): peel 400-year,
100-year, 4-year cycles and single years, with the `n -= n >> 2` boundary
corrections; `year` and `yday` are stored into C `int` fields. -/
def nt_absDate (abs : ℤ) (full : Bool) : nt_date :=
  let d := abs / nt_secondsPerDay
  let n := d / nt_daysPer400Years
  let y := 400 * n
  let d := d - nt_daysPer400Years * n
  let n := d / nt_daysPer100Years
  let n := n - n / 4
  let y := y + 100 * n
  let d := d - nt_daysPer100Years * n
  let n := d / nt_daysPer4Years
  let y := y + 4 * n
  let d := d - nt_daysPer4Years * n
  let n := d / 365
  let n := n - n / 4
  let y := y + n
  let d := d - 365 * n
  let year := wrap32 (y + nt_absoluteZeroYear)
  let yday := wrap32 d
  if ¬ full then ⟨year, 0, 0, yday⟩
  else
    if nt_isLeap year then
      if 31 + 29 - 1 < yday then nt_absDateFull year yday (yday - 1)
      else if yday = 31 + 29 - 1 then ⟨year, 2, 29, yday⟩
      else nt_absDateFull year yday yday
    else nt_absDateFull year yday yday

/-- Embeds `struct nt_Clock`. -/
structure nt_Clock where
  hour : ℤ
  min : ℤ
  sec : ℤ
deriving DecidableEq

/-- The source's `absClock` splits an absolute time into hour/minute/second of day. -/
def nt_Time_absClock (abs : ℤ) : nt_Clock :=
  let sec := abs % nt_secondsPerDay
  let hour := sec / nt_secondsPerHour
  let sec := sec - hour * nt_secondsPerHour
  let min := sec / nt_secondsPerMinute
  let sec := sec - min * nt_secondsPerMinute
  ⟨hour, min, sec⟩

/-- Weekday constant `nt_MONDAY` (header enum, Sunday = 0). -/
def nt_MONDAY : ℤ := 1

/-- Embeds `absWeekday`: January 1 of the absolute year was a Monday. -/
def nt_Time_absWeekday (abs : ℤ) : ℤ :=
  (abs + nt_MONDAY * nt_secondsPerDay) % nt_secondsPerWeek / nt_secondsPerDay

/-- Embeds `date(t, full)` = `absDate(abs(t), full)`. -/
def nt_Time_date (t : nt_Time) (full : Bool) : nt_date :=
  nt_absDate (nt_Time_abs t) full

/-- Embeds `Year`. -/
def nt_TimeYear (t : nt_Time) : ℤ := (nt_Time_date t false).year

/-- Embeds `Month`. -/
def nt_TimeMonth (t : nt_Time) : ℤ := (nt_Time_date t true).month

/-- Embeds `Day`. -/
def nt_TimeDay (t : nt_Time) : ℤ := (nt_Time_date t true).day

/-- Embeds `Clock`. -/
def nt_TimeClock (t : nt_Time) : nt_Clock := nt_Time_absClock (nt_Time_abs t)

/-- Embeds `Hour`. -/
def nt_TimeHour (t : nt_Time) : ℤ := nt_Time_abs t % nt_secondsPerDay / nt_secondsPerHour

/-- Embeds `Minute`. -/
def nt_TimeMinute (t : nt_Time) : ℤ := nt_Time_abs t % nt_secondsPerHour / nt_secondsPerMinute

/-- Embeds `Second`. -/
def nt_TimeSecond (t : nt_Time) : ℤ := nt_Time_abs t % nt_secondsPerMinute

/-- Embeds `Weekday`. -/
def nt_TimeWeekday (t : nt_Time) : ℤ := nt_Time_absWeekday (nt_Time_abs t)

/-! ## Construction (`time.c` lines 1144-1162, 1505-1512, 1567-1620) -/

/-- The source's `nt_unixTime(sec, nsec)` builds `(nt_Time){nsec, sec + unixToInternal,
nt_Local}`: the `int32_t` nanoseconds land in the `uint64_t` wall word. -/
def nt_unixTime (sec nsec : ℤ) : nt_Time :=
  ⟨toU64 nsec, wrap64 (sec + nt_unixToInternal), some .localLoc⟩

/-- The source's `UTC` returns t with the location set to UTC. -/
def nt_TimeUTC (t : nt_Time) : nt_Time := nt_Time_setLoc t .utc

/-- The source's `In` returns a copy of `t` with location `loc`; it panics
(`nt_panic`, embedded as `Except.error`) if `loc` is NULL. -/
def nt_TimeIn (t : nt_Time) (loc : Option Loc) : Except String nt_Time :=
  match loc with
  | none => .error "time: missing Location in call to nt_TimeIn"
  | some l => .ok (nt_Time_setLoc t l)

/-- Embeds `Unix` (the accessor): seconds since the Unix epoch. -/
def nt_TimeUnix (t : nt_Time) : ℤ := nt_Time_unixSec t

/-- Embeds `nt_Unix(sec, nsec)` constructor.  When `nsec` is out of `[0, 1e9)` the
source divides by the `double` literal `1e9`; that quotient is embedded as
exact truncated division, with which it agrees for every `|nsec| ≤ 2^53`
(beyond 104 days of nanosecond imbalance the `double` rounds). -/
def nt_Unix (sec nsec : ℤ) : nt_Time :=
  if nsec < 0 ∨ 10 ^ 9 ≤ nsec then
    let n := Int.tdiv nsec (10 ^ 9)
    let sec := wrap64 (sec + n)
    let nsec := nsec - n * 10 ^ 9
    let p := if nsec < 0 then (wrap64 (sec - 1), nsec + 10 ^ 9) else (sec, nsec)
    nt_unixTime p.1 p.2
  else nt_unixTime sec nsec

/-! ## Duration engine (`time.c` lines 681-916)

Durations are signed 64-bit nanosecond counts (`nt_Duration` is an `int64_t`
typedef in the header; the unit constants below are the header's, per the Go
original and spec §4.3/§6). -/

def nt_NANOSECOND : ℤ := 1
def nt_MICROSECOND : ℤ := 1000 * nt_NANOSECOND
def nt_MILLISECOND : ℤ := 1000 * nt_MICROSECOND
def nt_SECOND : ℤ := 1000 * nt_MILLISECOND
def nt_MINUTE : ℤ := 60 * nt_SECOND
def nt_HOUR : ℤ := 60 * nt_MINUTE

/-- The digit-emitting loop of `nt_fmtInt`: `while (v > 0) { prepend v%10;
v /= 10; }`.  Fuel keeps it structural; 20 digits cover every `uint64_t`. -/
def fmtIntLoop : ℕ → ℕ → List Char → List Char
  | 0, _, s => s
  | fuel + 1, v, s =>
    if v = 0 then s
    else fmtIntLoop fuel (v / 10) (Char.ofNat (48 + v % 10) :: s)

/-- The source's `fmtInt` formats `v` into the tail of the buffer, which is modelled as
the list of characters already emitted to its right. -/
def nt_fmtInt (s : List Char) (v : ℕ) : List Char :=
  if v = 0 then '0' :: s else fmtIntLoop 20 v s

/-- The loop of `nt_fmtFrac` over `prec` digits: a digit is emitted once a
non-zero digit has been seen (scanning from least significant), and a final
`'.'` is emitted if anything was. -/
def fmtFracLoop : ℕ → ℕ → Bool → List Char → List Char × ℕ
  | 0, v, pr, s => ((if pr then '.' :: s else s), v)
  | prec + 1, v, pr, s =>
    let digit := v % 10
    let pr := pr || digit ≠ 0
    fmtFracLoop prec (v / 10) pr (if pr then Char.ofNat (48 + digit) :: s else s)

/-- The source's `fmtFrac` formats the fraction `v / 10^prec` into the buffer tail,
omitting trailing zeros and a lone decimal point; returns the remaining
buffer tail and `v / 10^prec`. -/
def nt_fmtFrac (s : List Char) (v : ℕ) (prec : ℕ) : List Char × ℕ :=
  fmtFracLoop prec v false s

/-- Embeds `nt_Duration_format`, with the buffer modelled back-to-front as the list
of characters from the returned offset to the end.  `u = d; if (neg) u = -u`
on the unsigned word is the absolute value (`-2^63`'s magnitude included). -/
def nt_Duration_format (d : ℤ) : List Char :=
  let u : ℕ := d.natAbs
  let neg := d < 0
  if u < nt_SECOND.toNat then
    let s := ['s']
    if u = 0 then '0' :: s
    else
      let p : ℕ × List Char :=
        if u < nt_MICROSECOND.toNat then (0, 'n' :: s)
        else if u < nt_MILLISECOND.toNat then (3, 'µ' :: s)
        else (6, 'm' :: s)
      let f := nt_fmtFrac p.2 u p.1
      let s := nt_fmtInt f.1 f.2
      if neg then '-' :: s else s
  else
    let s := ['s']
    let f := nt_fmtFrac s u 9
    let s := nt_fmtInt f.1 (f.2 % 60)
    let u := f.2 / 60
    let s :=
      if 0 < u then
        let s := nt_fmtInt ('m' :: s) (u % 60)
        let u := u / 60
        if 0 < u then nt_fmtInt ('h' :: s) u else s
      else s
    if neg then '-' :: s else s

/-- The source's `DurationString` returns the textual form, e.g. `"72h3m0.5s"`. -/
def nt_DurationString (d : ℤ) : String := String.mk (nt_Duration_format d)

/-- The source's `lessThanHalf` is documented to report `x+x < y` "avoiding overflow",
but the C body is the plain signed addition `x+x < y`, which wraps. -/
def nt_lessThanHalf (x y : ℤ) : Bool := wrap64 (x + x) < y

/-- The source's `Round` returns `d` rounded to the nearest multiple of `m` (ties away
from zero), saturating to `minDuration`/`maxDuration`; `d` unchanged when
`m <= 0`.  `d % m` on signed operands is C truncated remainder; the two
overflow-probe sums `d - m + r` / `d + m - r` wrap (the additions `d + r`
and `d - r` cannot leave the range since `0 ≤ r < m`). -/
def nt_DurationRound (d m : ℤ) : ℤ :=
  if m ≤ 0 then d
  else
    let r := Int.tmod d m
    if d < 0 then
      let r := -r
      if nt_lessThanHalf r m then d + r
      else
        let d1 := wrap64 (d - m + r)
        if d1 < d then d1 else minDuration
    else
      if nt_lessThanHalf r m then d - r
      else
        let d1 := wrap64 (d + m - r)
        if d < d1 then d1 else maxDuration

/-! ## Calendar construction (`time.c` lines 1622-1759) -/

/-- Month constants from the header enum (January = 1). -/
def nt_JANUARY : ℤ := 1
def nt_FEBRUARY : ℤ := 2
def nt_MARCH : ℤ := 3
def nt_SEPTEMBER : ℤ := 9
def nt_DECEMBER : ℤ := 12

/-- Weekday constants from the header enum (Sunday = 0). -/
def nt_SUNDAY : ℤ := 0
def nt_WEDNESDAY : ℤ := 3
def nt_THURSDAY : ℤ := 4

/-- The source's `norm` returns `(nhi, nlo)` with `hi·base + lo == nhi·base + nlo` and
`0 ≤ nlo < base`; C `int` arithmetic with truncated division. -/
def nt_norm (hi lo base : ℤ) : ℤ × ℤ :=
  let p :=
    if lo < 0 then
      let n := Int.tdiv (-lo - 1) base + 1
      (hi - n, lo + n * base)
    else (hi, lo)
  if base ≤ p.2 then
    let n := Int.tdiv p.2 base
    (p.1 + n, p.2 - n * base)
  else p

/-- Embeds `daysSinceEpoch`: days from the absolute epoch to the start of `year`
(`uint64_t` arithmetic; the only signed-to-unsigned step is the initial
difference). -/
def nt_daysSinceEpoch (year : ℤ) : ℤ :=
  let y := toU64 (year - nt_absoluteZeroYear)
  let n := y / 400
  let y := y - 400 * n
  let d := nt_daysPer400Years * n
  let n := y / 100
  let y := y - 100 * n
  let d := d + nt_daysPer100Years * n
  let n := y / 4
  let y := y - 4 * n
  let d := d + nt_daysPer4Years * n
  let d := d + 365 * y
  d

/-- The source's `Date` builds the Time for the given (normalised) calendar fields in
`loc`; it panics on a NULL location.  The second, offset-correcting zone
lookup's result is discarded by the source (`nt_Location_lookup(loc, utc);
offset = lookup.offset;` re-reads the old struct), so only its possible
crash is modelled; `offset` is unchanged. -/
def nt_Date (year month day hour min sec nsec : ℤ) (loc : Option Loc) :
    Except String nt_Time :=
  match loc with
  | none => .error "time: missing Location in call to Date\n"
  | some lc =>
    let m := month - 1
    let p1 := nt_norm year m 12
    let year := p1.1
    let month := p1.2 + 1
    let p2 := nt_norm sec nsec (10 ^ 9)
    let sec := p2.1
    let nsec := p2.2
    let p3 := nt_norm min sec 60
    let min := p3.1
    let sec := p3.2
    let p4 := nt_norm hour min 60
    let hour := p4.1
    let min := p4.2
    let p5 := nt_norm day hour 24
    let day := p5.1
    let hour := p5.2
    let d := nt_daysSinceEpoch year
    let d := d + nt_daysBefore.getD (month - 1).toNat 0
    let d := if nt_isLeap year ∧ nt_MARCH ≤ month then d + 1 else d
    let d := toU64 (d + (day - 1))
    let abs := toU64 (d * nt_secondsPerDay
      + (hour * nt_secondsPerHour + min * nt_secondsPerMinute + sec))
    let unix := wrap64 (abs + (nt_absoluteToInternal + nt_internalToUnix))
    match nt_Location_lookup (some lc) unix with
    | none => .error "segfault: NULL cacheZone dereferenced in nt_Location_lookup"
    | some lk =>
      let offset := lk.offset
      if offset ≠ 0 then
        let utc := wrap64 (unix - offset)
        if utc < lk.start ∨ lk.stop ≤ utc then
          match nt_Location_lookup (some lc) utc with
          | none => .error "segfault: NULL cacheZone dereferenced in nt_Location_lookup"
          | some _ => .ok (nt_Time_setLoc (nt_unixTime (wrap64 (unix - offset)) nsec) lc)
        else .ok (nt_Time_setLoc (nt_unixTime (wrap64 (unix - offset)) nsec) lc)
      else .ok (nt_Time_setLoc (nt_unixTime unix nsec) lc)

/-! ## Reference decimal rendering (specification side)

The following definitions are not translations of `time.c`; they spell out,
following the spec's words (§4.3: sub-second durations "print with an
automatically selected sub-second unit (nanoseconds / microseconds /
milliseconds) chosen so the leading digit is non-zero, trimming trailing
fractional zeros and the decimal point if the fraction is exactly zero"),
what a sub-second rendering should look like.  They are compared against the
source's formatter in the refinement theorem for that claim. -/

/-- Big-endian decimal digits of `v` (no leading zeros; empty for `0`);
fuel-bounded, 20 digits cover a `uint64_t`. -/
def decDigits : ℕ → ℕ → List Char
  | 0, _ => []
  | f + 1, v => if v = 0 then [] else decDigits f (v / 10) ++ [Char.ofNat (48 + v % 10)]

/-- Standard decimal rendering of a natural number. -/
def decString (v : ℕ) : List Char := if v = 0 then ['0'] else decDigits 20 v

/-- Exactly `prec` big-endian decimal digits of `v` (leading zeros kept). -/
def padDigits : ℕ → ℕ → List Char
  | 0, _ => []
  | p + 1, v => padDigits p (v / 10) ++ [Char.ofNat (48 + v % 10)]

/-- Remove trailing `'0'` characters. -/
def trimZerosR (l : List Char) : List Char :=
  (l.reverse.dropWhile fun c => c = '0').reverse

/-- Spec-side rendering of a non-zero sub-second duration magnitude
`u ∈ (0, 10^9)`: the unit is the largest of ns/µs/ms whose scale is ≤ `u`
(so the leading digit is non-zero, with ns for anything below 1000),
the fractional part is trimmed of trailing zeros, and the decimal point is
dropped when the fraction is zero. -/
def specSubSecondChars (u : ℕ) : List Char :=
  let p : ℕ × ℕ × List Char :=
    if u < 1000 then (1, 0, ['n', 's'])
    else if u < 1000000 then (1000, 3, ['µ', 's'])
    else (1000000, 6, ['m', 's'])
  let ip := u / p.1
  let fr := u % p.1
  decString ip ++ (if fr = 0 then [] else '.' :: trimZerosR (padDigits p.2.1 fr)) ++ p.2.2

/-! # Theorems -/

set_option maxRecDepth 1000000

/-- The `double`-evaluated constant differs from the exact product
`-292277022400 · 365.2425 · 86400 = -9223371966579724800` (the value the Go
original uses): the final binary64 rounding lands on an exact tie and
ties-to-even moves it 512 away. -/
theorem nt_absoluteToInternal_val : nt_absoluteToInternal = -9223371966579724288 := by decide

/-- The exact value of the same constant expression, for comparison. -/
theorem nt_absoluteToInternal_exact :
    (nt_absoluteZeroYear - nt_internalYear) * 31556952 = -9223371966579724800 := by decide

/-- C1: the claim says `before`/`after` compare `(seconds, nanoseconds)`
lexicographically when a monotonic fast path does not apply.  The C source
misparenthesises both: `(ts == us && nt_Time_nsec(&t)) > nt_Time_nsec(&u)`
compares the `&&`'s 0/1 result against the nanoseconds.  Evaluated at
wall-only instants with seconds 5/3 (and nanoseconds 0/1), `before` returns
true although `t` is two seconds later; at equal seconds with nanoseconds
2/1, `after` returns false while `compare` returns +1. -/
theorem C1_before_after_misparenthesised :
    nt_TimeBefore ⟨0, 5, none⟩ ⟨1, 3, none⟩ = true ∧
    ¬(nt_Time_sec ⟨0, 5, none⟩ < nt_Time_sec ⟨1, 3, none⟩ ∨
      (nt_Time_sec ⟨0, 5, none⟩ = nt_Time_sec ⟨1, 3, none⟩ ∧
       nt_Time_nsec ⟨0, 5, none⟩ < nt_Time_nsec ⟨1, 3, none⟩)) ∧
    nt_TimeAfter ⟨2, 7, none⟩ ⟨1, 7, none⟩ = false ∧
    (nt_Time_sec ⟨2, 7, none⟩ = nt_Time_sec ⟨1, 7, none⟩ ∧
     nt_Time_nsec ⟨1, 7, none⟩ < nt_Time_nsec ⟨2, 7, none⟩) ∧
    nt_TimeCompare ⟨2, 7, none⟩ ⟨1, 7, none⟩ = 1 := by decide

/-- C2: the claim says calendar-field queries obtain the zone offset from the
location resolver whether or not the cache slot is populated.  In the source
the resolver call in `nt_Time_abs` is commented out (`TODO: Unfinished`):
with an empty cache slot the offset is silently dropped.  At Unix second 0 in
a location whose (resolvable) zone offset is +3600, `nt_TimeHour` returns the
UTC-side hour (23, given the shifted epoch constant) with an empty cache but
the offset-adjusted hour (0) once the cache slot is populated, while
`nt_Location_lookup` resolves the offset 3600 fine in both cases. -/
theorem C2_hour_ignores_resolver :
    nt_TimeHour ⟨0, nt_unixToInternal,
      some (.custom ⟨"X", [⟨"XST", 3600, false⟩], [⟨-1000000, 0⟩], 0, 0, none, ""⟩)⟩ = 23 ∧
    nt_Location_lookup
      (some (.custom ⟨"X", [⟨"XST", 3600, false⟩], [⟨-1000000, 0⟩], 0, 0, none, ""⟩)) 0 =
      some ⟨"XST", 3600, -1000000, nt_omega, false⟩ ∧
    nt_TimeHour ⟨0, nt_unixToInternal,
      some (.custom ⟨"X", [⟨"XST", 3600, false⟩], [⟨-1000000, 0⟩],
                     -1000000, nt_omega, some ⟨"XST", 3600, false⟩, ""⟩)⟩ = 0 := by decide

/-- C3: the claim says that for a query before the first transition the
lookup returns the zone selected by the `lookupFirstZone` rule.  In the
source the call `zone = &l.zone[l.lookupFirstZone()]` is commented out and
the branch reads the stale cache pointer instead (crashing when it is NULL).
For a two-zone location whose single transition references zone 1 and whose
cache covers `[100, 200)`, a query at 50 returns the cached zone "B"
(offset 200), while `lookupFirstZone` selects index 0, zone "A"
(offset 100). -/
theorem C3_lookup_skips_first_zone_rule :
    nt_Location_lookup
      (some (.custom ⟨"L3", [⟨"A", 100, false⟩, ⟨"B", 200, false⟩], [⟨100, 1⟩],
                     100, 200, some ⟨"B", 200, false⟩, ""⟩)) 50 =
      some ⟨"B", 200, 0, 100, false⟩ ∧
    nt_Location_lookupFirstZone
      ⟨"L3", [⟨"A", 100, false⟩, ⟨"B", 200, false⟩], [⟨100, 1⟩],
       100, 200, some ⟨"B", 200, false⟩, ""⟩ = 0 ∧
    ([⟨"A", 100, false⟩, ⟨"B", 200, false⟩] : List nt_zone).getD 0 default = ⟨"A", 100, false⟩ ∧
    nt_Location_lookup
      (some (.custom ⟨"L3n", [⟨"A", 100, false⟩, ⟨"B", 200, false⟩], [⟨100, 1⟩],
                     0, 0, none, ""⟩)) 50 = none := by decide

/-- C5: the claim (and the repository's own `time_test.c` golden table) says
Unix second 0 decomposes in UTC to 1970-01-01T00:00:00, Thursday, and
1221681866 to 2008-09-17T20:04:26, Wednesday.  Because the source computes
`nt_absoluteToInternal` in C `double` arithmetic the absolute epoch is
shifted by 512 seconds, and the code instead yields 1969-12-31T23:51:28
(Wednesday) and 2008-09-17T19:55:54.  With the exact constant
`-9223371966579724800` (last two conjuncts) the claimed values do hold. -/
theorem C5_epoch_decomposition_shifted :
    nt_TimeYear (nt_TimeUTC (nt_Unix 0 0)) = 1969 ∧
    nt_TimeMonth (nt_TimeUTC (nt_Unix 0 0)) = nt_DECEMBER ∧
    nt_TimeDay (nt_TimeUTC (nt_Unix 0 0)) = 31 ∧
    nt_TimeClock (nt_TimeUTC (nt_Unix 0 0)) = nt_Clock.mk 23 51 28 ∧
    nt_TimeWeekday (nt_TimeUTC (nt_Unix 0 0)) = nt_WEDNESDAY ∧
    nt_TimeYear (nt_TimeUTC (nt_Unix 1221681866 0)) = 2008 ∧
    nt_TimeMonth (nt_TimeUTC (nt_Unix 1221681866 0)) = nt_SEPTEMBER ∧
    nt_TimeDay (nt_TimeUTC (nt_Unix 1221681866 0)) = 17 ∧
    nt_TimeClock (nt_TimeUTC (nt_Unix 1221681866 0)) = nt_Clock.mk 19 55 54 ∧
    nt_TimeWeekday (nt_TimeUTC (nt_Unix 1221681866 0)) = nt_WEDNESDAY ∧
    nt_absDate (nt_unixToInternal + 9223371966579724800) true = nt_date.mk 1970 nt_JANUARY 1 0 ∧
    nt_Time_absClock (nt_unixToInternal + 9223371966579724800) = nt_Clock.mk 0 0 0 ∧
    nt_Time_absWeekday (nt_unixToInternal + 9223371966579724800) = nt_THURSDAY := by decide

/-- C8: the claim says `round` returns the multiple of `m` nearest to `d`
(ties away from zero) with saturation only on true overflow.  The two stated
examples hold, but `nt_lessThanHalf` — documented in the source itself as
"reports whether x+x < y but avoids overflow" — performs the plain signed
addition, which wraps: at `d = 2^62 + 2^61`, `m = 2^63 - 1` the doubled
remainder wraps negative, the code rounds down and returns 0, although the
multiple `m` itself is strictly nearer (and representable). -/
theorem C8_round_lessThanHalf_overflows :
    nt_DurationRound (90 * nt_MINUTE) nt_HOUR = 120 * nt_MINUTE ∧
    nt_DurationRound (-90 * nt_MINUTE) nt_HOUR = -(120 * nt_MINUTE) ∧
    nt_DurationRound (2 ^ 62 + 2 ^ 61) (2 ^ 63 - 1) = 0 ∧
    ((2 ^ 63 - 1 : ℤ) - (2 ^ 62 + 2 ^ 61)) < ((2 ^ 62 + 2 ^ 61 : ℤ) - 0) ∧
    (2 ^ 63 - 1 : ℤ) ≤ maxDuration := by decide

/-- C9: passing a NULL location to explicit re-location (`nt_TimeIn`) or to
explicit calendar construction (`nt_Date`) panics — the embedded functions
return the panic as an error and never a value, for every combination of the
other arguments. -/
theorem C9_null_location_panics :
    (∀ t : nt_Time, nt_TimeIn t none = .error "time: missing Location in call to nt_TimeIn") ∧
    ∀ year month day hour min sec nsec : ℤ,
      nt_Date year month day hour min sec nsec none =
        .error "time: missing Location in call to Date\n" :=
  ⟨fun _ => rfl, fun _ _ _ _ _ _ _ => rfl⟩

/-- C4: constructing from Unix seconds and reading Unix seconds back is the
identity for every `int64` input (the internal-epoch shift cancels through
the two's-complement wraparound). -/
theorem C4_unix_roundtrip (sec : ℤ) (h1 : -(2 ^ 63) ≤ sec) (h2 : sec < 2 ^ 63) :
    nt_TimeUnix (nt_Unix sec 0) = sec := by
  have hc : ¬((0 : ℤ) < 0 ∨ (10 : ℤ) ^ 9 ≤ 0) := by norm_num
  simp only [nt_TimeUnix, nt_Unix, hc, if_neg, nt_unixTime, nt_Time_unixSec, nt_Time_sec,
    nt_Time_hasMono, toU64, wrap64, nt_unixToInternal, nt_internalToUnix, nt_secondsPerDay,
    nt_secondsPerHour, nt_secondsPerMinute]
  norm_num
  omega

/-- Witness for C4 at `sec = 12345`. -/
theorem C4_unix_roundtrip_witness :
    -(2 ^ 63) ≤ (12345 : ℤ) ∧ (12345 : ℤ) < 2 ^ 63 ∧ nt_TimeUnix (nt_Unix 12345 0) = 12345 :=
  ⟨by decide, by decide, C4_unix_roundtrip 12345 (by decide) (by decide)⟩

/-- Core of C10: `setLoc` preserves the wall instant (internal seconds and
nanoseconds) and clears the monotonic flag. -/
theorem setLoc_preserves (t : nt_Time) (loc : Loc) :
    nt_Time_sec (nt_Time_setLoc t loc) = nt_Time_sec t ∧
    nt_Time_nsec (nt_Time_setLoc t loc) = nt_Time_nsec t ∧
    nt_Time_hasMono (nt_Time_setLoc t loc) = false := by
  obtain ⟨w, e, l⟩ := t
  simp only [nt_Time_setLoc, nt_Time_stripMono, nt_Time_hasMono, nt_Time_sec, nt_Time_nsec,
    wrap64, nt_wallToInternal, nt_secondsPerDay, nt_secondsPerHour, nt_secondsPerMinute,
    nt_nsecShift, decide_eq_true_eq, decide_eq_false_iff_not]
  split_ifs <;> dsimp only at * <;> refine ⟨?_, ?_, ?_⟩ <;> omega

/-- C10: attaching a (non-NULL) location — `setLoc`, and hence `UTC` and
`In` — preserves the represented wall instant: the seconds-since-year-1
value and the nanosecond component are unchanged; only the monotonic
flag/reading and the location field change. -/
theorem C10_setLoc_preserves_instant (t : nt_Time) (loc : Loc) :
    nt_Time_sec (nt_Time_setLoc t loc) = nt_Time_sec t ∧
    nt_Time_nsec (nt_Time_setLoc t loc) = nt_Time_nsec t ∧
    nt_Time_hasMono (nt_Time_setLoc t loc) = false ∧
    nt_Time_sec (nt_TimeUTC t) = nt_Time_sec t ∧
    nt_Time_nsec (nt_TimeUTC t) = nt_Time_nsec t ∧
    nt_TimeIn t (some loc) = .ok (nt_Time_setLoc t loc) :=
  ⟨(setLoc_preserves t loc).1, (setLoc_preserves t loc).2.1, (setLoc_preserves t loc).2.2,
   (setLoc_preserves t .utc).1, (setLoc_preserves t .utc).2.1, rfl⟩

/-- Transition timestamps are monotone under the sortedness hypothesis. -/
theorem txWhen_mono (tx : List nt_zoneTrans)
    (hs : List.Pairwise (fun a b => a.whenSec < b.whenSec) tx)
    {i j : ℕ} (hij : i ≤ j) (hj : j < tx.length) :
    (tx.getD i default).whenSec ≤ (tx.getD j default).whenSec := by
  rcases eq_or_lt_of_le hij with rfl | h
  · exact le_refl _
  · have hi : i < tx.length := lt_trans h hj
    rw [List.getD_eq_getElem _ _ hi, List.getD_eq_getElem _ _ hj]
    exact le_of_lt (List.pairwise_iff_getElem.mp hs i j hi hj h)

/-- Invariant of the binary-search loop: starting from a window
`lo < hi ≤ |tx|` with `tx[lo].when ≤ sec`, `sec` below the window's upper
bound, `stop` tracking that bound (`omega` iff the window is right-open), and
enough fuel, the loop returns the bracketing index and upper bound. -/
theorem bsearchLoop_inv (tx : List nt_zoneTrans) (sec : ℤ) :
    ∀ (fuel lo hi : ℕ) (stop : ℤ),
      hi ≤ tx.length → lo < hi → hi - lo ≤ fuel + 1 →
      (tx.getD lo default).whenSec ≤ sec →
      (hi = tx.length ∧ stop = nt_omega ∨
       hi < tx.length ∧ sec < (tx.getD hi default).whenSec ∧
         stop = (tx.getD hi default).whenSec) →
      lo ≤ (bsearchLoop tx sec fuel lo hi stop).1 ∧
      (bsearchLoop tx sec fuel lo hi stop).1 < hi ∧
      (tx.getD (bsearchLoop tx sec fuel lo hi stop).1 default).whenSec ≤ sec ∧
      ((bsearchLoop tx sec fuel lo hi stop).1 + 1 = tx.length ∧
         (bsearchLoop tx sec fuel lo hi stop).2 = nt_omega ∨
       (bsearchLoop tx sec fuel lo hi stop).1 + 1 < tx.length ∧
         sec < (tx.getD ((bsearchLoop tx sec fuel lo hi stop).1 + 1) default).whenSec ∧
         (bsearchLoop tx sec fuel lo hi stop).2 =
           (tx.getD ((bsearchLoop tx sec fuel lo hi stop).1 + 1) default).whenSec) := by
  intro fuel
  induction fuel with
  | zero =>
    intro lo hi stop h1 h2 h3 h4 h5
    simp only [bsearchLoop]
    have he : hi = lo + 1 := by omega
    subst he
    exact ⟨le_refl _, by omega, h4, by tauto⟩
  | succ f ih =>
    intro lo hi stop h1 h2 h3 h4 h5
    simp only [bsearchLoop]
    by_cases hc : 1 < hi - lo
    · rw [if_pos hc]
      by_cases hsec : sec < (tx.getD ((lo + hi) / 2) default).whenSec
      · rw [if_pos hsec]
        have hm2 : (lo + hi) / 2 < hi := by omega
        have := ih lo ((lo + hi) / 2) ((tx.getD ((lo + hi) / 2) default).whenSec)
          (le_trans (le_of_lt hm2) h1) (by omega) (by omega) h4
          (Or.inr ⟨lt_of_lt_of_le hm2 h1, hsec, rfl⟩)
        exact ⟨this.1, lt_trans this.2.1 hm2, this.2.2⟩
      · rw [if_neg hsec]
        have hm1 : lo < (lo + hi) / 2 := by omega
        have := ih ((lo + hi) / 2) hi stop h1 (by omega) (by omega) (not_lt.mp hsec) h5
        exact ⟨le_trans (le_of_lt hm1) this.1, this.2⟩
    · rw [if_neg hc]
      have he : hi = lo + 1 := by omega
      subst he
      exact ⟨le_refl _, by omega, h4, by tauto⟩

/-- C6 (amended): with the transition table sorted, the single-slot cache not
covering the query, and `tx[i].when ≤ sec < tx[i+1].when`, the lookup returns
the zone referenced by transition `i`, with `stop` the next transition's
timestamp and `start` that transition's timestamp narrowed into the C `int`
result field. -/
theorem C6_binary_search_amended (ld : LocationData) (sec : ℤ) (i : ℕ)
    (hz : ld.zone.length ≠ 0)
    (hcache : ld.cacheZone = none ∨ ¬(ld.cacheStart ≤ sec ∧ sec < ld.cacheEnd))
    (hsort : List.Pairwise (fun a b => a.whenSec < b.whenSec) ld.tx)
    (hi1 : i + 1 < ld.tx.length)
    (hle : (ld.tx.getD i default).whenSec ≤ sec)
    (hlt : sec < (ld.tx.getD (i + 1) default).whenSec) :
    nt_Location_lookup (some (.custom ld)) sec =
      some ⟨(ld.zone.getD (ld.tx.getD i default).index default).name,
            (ld.zone.getD (ld.tx.getD i default).index default).offset,
            wrap32 (ld.tx.getD i default).whenSec,
            (ld.tx.getD (i + 1) default).whenSec,
            (ld.zone.getD (ld.tx.getD i default).index default).isDST⟩ := by
  have hW0 : (ld.tx.getD 0 default).whenSec ≤ sec :=
    le_trans (txWhen_mono ld.tx hsort (Nat.zero_le i) (by omega)) hle
  have hslow : nt_Location_lookupSlow ld sec ld.cacheZone =
      some ⟨(ld.zone.getD (ld.tx.getD i default).index default).name,
            (ld.zone.getD (ld.tx.getD i default).index default).offset,
            wrap32 (ld.tx.getD i default).whenSec,
            (ld.tx.getD (i + 1) default).whenSec,
            (ld.zone.getD (ld.tx.getD i default).index default).isDST⟩ := by
    have hcond : ¬(ld.tx.length = 0 ∨ sec < (ld.tx.headD default).whenSec) := by
      push_neg
      refine ⟨by omega, ?_⟩
      have : ld.tx.headD default = ld.tx.getD 0 default := by
        cases ld.tx <;> rfl
      rw [this]
      exact hW0
    simp only [nt_Location_lookupSlow]
    rw [if_neg hcond]
    have inv := bsearchLoop_inv ld.tx sec ld.tx.length 0 ld.tx.length nt_omega
      (le_refl _) (by omega) (by omega) hW0 (Or.inl ⟨rfl, rfl⟩)
    set b := bsearchLoop ld.tx sec ld.tx.length 0 ld.tx.length nt_omega with hbdef
    obtain ⟨h0le, hlthi, hWle, hdisj⟩ := inv
    have hri : b.1 = i := by
      rcases Nat.lt_trichotomy b.1 i with hlt2 | heq | hgt
      · rcases hdisj with ⟨ha, _⟩ | ⟨ha, hb2, _⟩
        · omega
        · have hmono : (ld.tx.getD (b.1 + 1) default).whenSec ≤
              (ld.tx.getD i default).whenSec :=
            txWhen_mono ld.tx hsort (by omega) (by omega)
          omega
      · exact heq
      · have hmono : (ld.tx.getD (i + 1) default).whenSec ≤
            (ld.tx.getD b.1 default).whenSec :=
          txWhen_mono ld.tx hsort (by omega) (by omega)
        omega
    rcases hdisj with ⟨ha, _⟩ | ⟨_, _, hc⟩
    · omega
    · rw [hri] at hc
      simp only [hri, hc]
  rw [nt_Location_lookup]
  simp only [nt_Location_get, Loc.data]
  rw [if_neg hz]
  rcases hcz : ld.cacheZone with _ | z
  · rw [hcz] at hslow
    exact hslow
  · rcases hcache with hnone | hwin
    · rw [hcz] at hnone
      simp at hnone
    · rw [hcz] at hslow
      dsimp only
      rw [if_neg hwin]
      exact hslow

/-- C6 counterexample to the claim as stated: the `start` result field is a
C `int`, so a transition timestamp beyond 2^31 comes back truncated. -/
theorem C6_start_field_truncated :
    nt_Location_lookup (some (.custom ⟨"L6", [⟨"A", 1, false⟩, ⟨"B", 2, false⟩],
        [⟨2147483648, 0⟩, ⟨2147483748, 1⟩], 0, 0, none, ""⟩)) 2147483700 =
      some ⟨"A", 1, -2147483648, 2147483748, false⟩ ∧
    (([⟨2147483648, 0⟩, ⟨2147483748, 1⟩] : List nt_zoneTrans).getD 0 default).whenSec
      = 2147483648 ∧
    (-2147483648 : ℤ) ≠ 2147483648 := by decide

/-- Witness for C6 (amended) at a concrete two-transition location. -/
theorem C6_binary_search_witness :
    nt_Location_lookup (some (.custom ⟨"W6", [⟨"A", 1, false⟩, ⟨"B", 2, false⟩],
        [⟨10, 0⟩, ⟨20, 1⟩], 0, 0, none, ""⟩)) 15 =
      some ⟨"A", 1, wrap32 10, 20, false⟩ ∧
    List.Pairwise (fun a b => a.whenSec < b.whenSec)
      ([⟨10, 0⟩, ⟨20, 1⟩] : List nt_zoneTrans) :=
  ⟨C6_binary_search_amended ⟨"W6", [⟨"A", 1, false⟩, ⟨"B", 2, false⟩],
      [⟨10, 0⟩, ⟨20, 1⟩], 0, 0, none, ""⟩ 15 0 (by decide) (Or.inl rfl)
      (by decide) (by decide) (by decide) (by decide), by decide⟩

theorem fmtIntLoop_eq (fuel : ℕ) : ∀ (v : ℕ) (s : List Char),
    fmtIntLoop fuel v s = decDigits fuel v ++ s := by
  induction fuel with
  | zero => intro v s; rfl
  | succ f ih =>
    intro v s
    simp only [fmtIntLoop, decDigits]
    by_cases h : v = 0
    · simp [h]
    · rw [if_neg h, if_neg h, ih, List.append_assoc, List.singleton_append]

theorem nt_fmtInt_eq (s : List Char) (v : ℕ) :
    nt_fmtInt s v = decString v ++ s := by
  by_cases h : v = 0
  · simp [nt_fmtInt, decString, h]
  · simp [nt_fmtInt, decString, h, fmtIntLoop_eq]

theorem fmtFracLoop_true (prec : ℕ) : ∀ (v : ℕ) (s : List Char),
    fmtFracLoop prec v true s =
      ('.' :: (padDigits prec (v % 10 ^ prec) ++ s), v / 10 ^ prec) := by
  induction prec with
  | zero => intro v s; simp [fmtFracLoop, padDigits]
  | succ p ih =>
    intro v s
    have e1 : v % 10 ^ (p + 1) / 10 = v / 10 % 10 ^ p := by
      rw [pow_succ']
      exact Nat.mod_mul_right_div_self v 10 (10 ^ p)
    have e2 : v % 10 ^ (p + 1) % 10 = v % 10 :=
      Nat.mod_mod_of_dvd v (dvd_pow_self 10 (Nat.succ_ne_zero p))
    have e3 : v / 10 / 10 ^ p = v / 10 ^ (p + 1) := by
      rw [Nat.div_div_eq_div_mul, pow_succ']
    simp only [fmtFracLoop, Bool.true_or, if_pos, padDigits, e1, e2, e3, ih,
      List.append_assoc, List.singleton_append]

theorem trimZerosR_append_zero (l : List Char) : trimZerosR (l ++ ['0']) = trimZerosR l := by
  simp [trimZerosR, List.reverse_append, List.dropWhile_cons]

theorem trimZerosR_append_ne (l : List Char) (c : Char) (h : c ≠ '0') :
    trimZerosR (l ++ [c]) = l ++ [c] := by
  simp [trimZerosR, List.reverse_append, List.dropWhile_cons, h]

theorem digitChar_ne_zero : ∀ k : Fin 10, k.val ≠ 0 → Char.ofNat (48 + k.val) ≠ '0' := by decide

theorem fmtFracLoop_false (prec : ℕ) : ∀ (v : ℕ) (s : List Char),
    fmtFracLoop prec v false s =
      ((if v % 10 ^ prec = 0 then s
        else '.' :: (trimZerosR (padDigits prec (v % 10 ^ prec)) ++ s)), v / 10 ^ prec) := by
  induction prec with
  | zero => intro v s; simp [fmtFracLoop, Nat.mod_one]
  | succ p ih =>
    intro v s
    have e1 : v % 10 ^ (p + 1) / 10 = v / 10 % 10 ^ p := by
      rw [pow_succ']
      exact Nat.mod_mul_right_div_self v 10 (10 ^ p)
    have e2 : v % 10 ^ (p + 1) % 10 = v % 10 :=
      Nat.mod_mod_of_dvd v (dvd_pow_self 10 (Nat.succ_ne_zero p))
    have e3 : v / 10 / 10 ^ p = v / 10 ^ (p + 1) := by
      rw [Nat.div_div_eq_div_mul, pow_succ']
    have hmod : v % 10 ^ (p + 1) = 0 ↔ (v / 10 % 10 ^ p = 0 ∧ v % 10 = 0) := by
      constructor
      · intro h
        exact ⟨by rw [← e1, h, Nat.zero_div], by rw [← e2, h, Nat.zero_mod]⟩
      · rintro ⟨ha, hb⟩
        have := Nat.div_add_mod (v % 10 ^ (p + 1)) 10
        rw [e1, e2, ha, hb] at this
        omega
    by_cases hd : v % 10 = 0
    · have hD : (decide ¬v % 10 = 0) = false := by simp [hd]
      simp only [fmtFracLoop, Bool.false_or, ne_eq, hD, Bool.false_eq_true, if_false]
      rw [ih]
      by_cases hz : v / 10 % 10 ^ p = 0
      · rw [if_pos hz, if_pos (hmod.mpr ⟨hz, hd⟩), e3]
      · have hc0 : Char.ofNat (48 + 0) = '0' := by decide
        have hpad : padDigits (p + 1) (v % 10 ^ (p + 1)) =
            padDigits p (v / 10 % 10 ^ p) ++ ['0'] := by
          simp only [padDigits, e1, e2, hd, hc0]
        rw [if_neg hz, if_neg (fun hcontra => hz (hmod.mp hcontra).1), e3,
          hpad, trimZerosR_append_zero]
    · have hD : (decide ¬v % 10 = 0) = true := by simp [hd]
      simp only [fmtFracLoop, Bool.false_or, ne_eq, hD, if_true]
      rw [fmtFracLoop_true]
      have hklt : v % 10 < 10 := Nat.mod_lt _ (by norm_num)
      have hcne : Char.ofNat (48 + v % 10) ≠ '0' := digitChar_ne_zero ⟨v % 10, hklt⟩ hd
      have hpad : padDigits (p + 1) (v % 10 ^ (p + 1)) =
          padDigits p (v / 10 % 10 ^ p) ++ [Char.ofNat (48 + v % 10)] := by
        simp only [padDigits, e1, e2]
      rw [if_neg (fun hcontra => hd (hmod.mp hcontra).2), e3,
        hpad, trimZerosR_append_ne _ _ hcne, List.append_assoc, List.singleton_append]

theorem format_subsecond (d : ℤ) (h1 : d ≠ 0) (h2 : d.natAbs < 10 ^ 9) :
    nt_Duration_format d = (if d < 0 then ['-'] else []) ++ specSubSecondChars d.natAbs := by
  have hu0 : d.natAbs ≠ 0 := by simpa using h1
  have hsecN : nt_SECOND.toNat = 1000000000 := by decide
  have hmicN : nt_MICROSECOND.toNat = 1000 := by decide
  have hmilN : nt_MILLISECOND.toNat = 1000000 := by decide
  have hsec : d.natAbs < nt_SECOND.toNat := by omega
  by_cases hA : d.natAbs < 1000
  · have hmic : d.natAbs < nt_MICROSECOND.toNat := by omega
    simp only [nt_Duration_format, specSubSecondChars, hsec, hmic, hA, hu0, if_true,
      if_false, ite_true, ite_false, ne_eq, not_false_eq_true, nt_fmtFrac, fmtFracLoop,
      Bool.false_eq_true, nt_fmtInt_eq, Nat.div_one, Nat.mod_one]
    by_cases hn : d < 0 <;> simp [hn]
  · by_cases hB : d.natAbs < 1000000
    · have hmic : ¬ d.natAbs < nt_MICROSECOND.toNat := by omega
      have hmil : d.natAbs < nt_MILLISECOND.toNat := by omega
      have hp3 : (10 : ℕ) ^ 3 = 1000 := by norm_num
      simp only [nt_Duration_format, specSubSecondChars, hsec, hmic, hmil, hA, hB, hu0,
        if_true, if_false, ite_true, ite_false, ne_eq, not_false_eq_true,
        nt_fmtFrac, fmtFracLoop_false, hp3, nt_fmtInt_eq]
      by_cases hn : d < 0 <;> by_cases hfr : d.natAbs % 1000 = 0 <;>
        simp [hn, hfr, List.append_assoc]
    · have hmic : ¬ d.natAbs < nt_MICROSECOND.toNat := by omega
      have hmil : ¬ d.natAbs < nt_MILLISECOND.toNat := by omega
      have hp6 : (10 : ℕ) ^ 6 = 1000000 := by norm_num
      simp only [nt_Duration_format, specSubSecondChars, hsec, hmic, hmil, hA, hB, hu0,
        if_true, if_false, ite_true, ite_false, ne_eq, not_false_eq_true,
        nt_fmtFrac, fmtFracLoop_false, hp6, nt_fmtInt_eq]
      by_cases hn : d < 0 <;> by_cases hfr : d.natAbs % 1000000 = 0 <;>
        simp [hn, hfr, List.append_assoc]

/-- C7: duration formatting. -/
theorem C7_duration_formatting :
    nt_DurationString 0 = "0s" ∧
    nt_DurationString 1500000 = "1.5ms" ∧
    nt_DurationString (-90 * nt_MINUTE) = "-1h30m0s" ∧
    ∀ d : ℤ, d ≠ 0 → d.natAbs < 10 ^ 9 →
      nt_DurationString d =
        String.mk ((if d < 0 then ['-'] else []) ++ specSubSecondChars d.natAbs) :=
  ⟨by decide, by decide, by decide,
   fun d hd hlt => by rw [nt_DurationString, format_subsecond d hd hlt]⟩

/-- Witness for C7 at `d = 1500`. -/
theorem C7_duration_formatting_witness :
    (1500 : ℤ) ≠ 0 ∧ (1500 : ℤ).natAbs < 10 ^ 9 ∧
    nt_DurationString 1500 =
      String.mk ((if (1500 : ℤ) < 0 then ['-'] else []) ++
        specSubSecondChars (1500 : ℤ).natAbs) :=
  ⟨by decide, by decide, C7_duration_formatting.2.2.2 1500 (by decide) (by decide)⟩

end Nanotime
